import Mathlib

/-!
Shallow embedding of the onshape-exporter program: the configuration
parameter resolver, the filename-suffix derivation, the translation poll
loop, and the export orchestration pipeline, together with theorems about
the properties the specification states for them.

Python values that may appear as a raw configuration value are modelled by
the closed type `PyVal`.  Python floats are modelled by exact decimal
numbers `Dec` (every float literal the program parses or compares is a
finite decimal, and none of the properties below depend on binary
rounding).  Python exceptions are modelled by `Except` with the exception
class recorded in `PyExn`; the distinct `ValueError` raise sites of the
resolver are distinguished by `ResolveError`, named after the
specification taxonomy.
-/

/-- Exact decimal number: the value num / 10 ^ exp.  Used to model the
numeric values the program parses and compares. -/
structure Dec where
  num : Int
  exp : Nat
deriving DecidableEq, Repr

/-- Value-level strict order on decimals, by cross multiplication. -/
def Dec.blt (a b : Dec) : Bool :=
  a.num * (10 : Int) ^ b.exp < b.num * (10 : Int) ^ a.exp

/-- Integer as a decimal. -/
def Dec.ofInt (n : Int) : Dec := ⟨n, 0⟩

/-- Raw configuration value as it comes out of the YAML configuration file:
a number, a string, or a boolean.  Mirrors the value domain the
specification assigns to a rawValue. -/
inductive PyVal where
  | pyInt (n : Int)
  | pyFloat (d : Dec)
  | pyStr (s : String)
  | pyBool (b : Bool)
deriving DecidableEq, Repr

/-- Python `isinstance(x, str)`. -/
def PyVal.isStr : PyVal → Bool
  | .pyStr _ => true
  | _ => false

/-- Python `isinstance(x, (int, float))`.  In Python `bool` is a subclass
of `int`, so booleans satisfy this test as well. -/
def PyVal.isNumberLike : PyVal → Bool
  | .pyInt _ => true
  | .pyFloat _ => true
  | .pyBool _ => true
  | .pyStr _ => false

/-- Python `isinstance(x, bool)`. -/
def PyVal.isBoolVal : PyVal → Bool
  | .pyBool _ => true
  | _ => false

/-- Numeric value of a number-like Python value: booleans count as 1 and
0, exactly as in Python arithmetic comparisons. -/
def PyVal.numericValue : PyVal → Dec
  | .pyInt n => ⟨n, 0⟩
  | .pyFloat d => d
  | .pyBool b => ⟨if b then 1 else 0, 0⟩
  | .pyStr _ => ⟨0, 0⟩

/-- Value of a digit list read in base 10. -/
def digitsToNat (ds : List Char) : Nat :=
  ds.foldl (fun a c => 10 * a + (c.toNat - 48)) 0

/-- Fixed-point decimal rendering of an integer with the decimal point `k`
places from the right, `k` positive. -/
def renderFixed (scaled : Int) (k : Nat) : String :=
  let sgn := if scaled < 0 then "-" else ""
  let l := (toString scaled.natAbs).data
  let l := if l.length ≤ k then List.replicate (k + 1 - l.length) '0' ++ l else l
  sgn ++ String.mk (l.take (l.length - k)) ++ "." ++ String.mk (l.drop (l.length - k))

/-- Strip trailing zero decimal places from a decimal representation. -/
def decNormTrail : Int → Nat → Dec
  | n, 0 => ⟨n, 0⟩
  | n, e + 1 => if n % 10 = 0 then decNormTrail (n / 10) e else ⟨n, e + 1⟩

/-- Text rendering of a Python float modelled as an exact decimal, with
the smallest number of decimal places and a trailing `.0` for an integral
value, as Python renders floats that are exact short decimals.  No claim
below depends on the text rendering of a non-integral float. -/
def floatRepr (d : Dec) : String :=
  let n := decNormTrail d.num d.exp
  if n.exp = 0 then toString n.num ++ ".0" else renderFixed n.num n.exp

/-- Python f-string rendering of a value, as used by the resolver when it
appends a default unit to a bare numeric value. -/
def PyVal.pyRepr : PyVal → String
  | .pyInt n => toString n
  | .pyFloat d => floatRepr d
  | .pyStr s => s
  | .pyBool b => if b then "True" else "False"

/-- List prefix test by structural recursion, kernel-evaluable. -/
def leadMatch : List Char → List Char → Bool
  | [], _ => true
  | _ :: _, [] => false
  | a :: as, b :: bs => a = b && leadMatch as bs

/-- Python `s.endswith(u)`. -/
def strEndsWith (s u : String) : Bool :=
  leadMatch u.data.reverse s.data.reverse

/-- Strip leading and trailing whitespace, as Python `float` does to its
argument. -/
def trimWs (l : List Char) : List Char :=
  ((l.dropWhile Char.isWhitespace).reverse.dropWhile Char.isWhitespace).reverse

/-- First whitespace-delimited token of a string, as Python `s.split()[0]`
computes it.  The resolver only evaluates this on strings that end with a
supported unit, which are never all-whitespace, so the empty default is
unreachable there. -/
def firstTok (s : String) : String :=
  String.mk ((s.data.dropWhile Char.isWhitespace).takeWhile (fun c => !c.isWhitespace))

/-- ASCII lowercasing of one character, as Python `str.lower` acts on the
ASCII format names used here. -/
def lowerChar (c : Char) : Char :=
  if 'A' ≤ c && c ≤ 'Z' then Char.ofNat (c.toNat + 32) else c

/-- Python `s.lower()` on ASCII strings. -/
def strLower (s : String) : String :=
  String.mk (s.data.map lowerChar)

/-- Exponent part of a Python float literal: after the `e`, an optional
sign followed by one or more digits ending the input. -/
def parseExpPart (l : List Char) : Option Int :=
  let sgn : Int := match l with
    | '-' :: _ => -1
    | _ => 1
  let rest := match l with
    | '+' :: t => t
    | '-' :: t => t
    | t => t
  let ds := rest.takeWhile Char.isDigit
  let rem := rest.dropWhile Char.isDigit
  if ds.isEmpty || !rem.isEmpty then none
  else some (sgn * (digitsToNat ds : Int))

/-- Apply a decimal exponent to a parsed mantissa. -/
def applyExp (m : Dec) (e : Int) : Dec :=
  if 0 ≤ e then ⟨m.num * (10 : Int) ^ e.toNat, m.exp⟩ else ⟨m.num, m.exp + (-e).toNat⟩

/-- Mantissa of a Python float literal (after any sign): digits, an
optional fractional part, an optional exponent; at least one mantissa
digit is required and the whole input must be consumed. -/
def parseMantissaAndExp (l : List Char) : Option Dec :=
  let ip := l.takeWhile Char.isDigit
  let r1 := l.dropWhile Char.isDigit
  match r1 with
  | '.' :: r2 =>
      let fp := r2.takeWhile Char.isDigit
      let r3 := r2.dropWhile Char.isDigit
      if ip.isEmpty && fp.isEmpty then none
      else
        let mant : Dec := ⟨(digitsToNat ip : Int) * (10 : Int) ^ fp.length + (digitsToNat fp : Int), fp.length⟩
        match r3 with
        | [] => some mant
        | 'e' :: r4 => (parseExpPart r4).map (applyExp mant)
        | 'E' :: r4 => (parseExpPart r4).map (applyExp mant)
        | _ => none
  | [] => if ip.isEmpty then none else some ⟨(digitsToNat ip : Int), 0⟩
  | 'e' :: r4 =>
      if ip.isEmpty then none
      else (parseExpPart r4).map (applyExp ⟨(digitsToNat ip : Int), 0⟩)
  | 'E' :: r4 =>
      if ip.isEmpty then none
      else (parseExpPart r4).map (applyExp ⟨(digitsToNat ip : Int), 0⟩)
  | _ => none

/-- Model of Python `float(s)` for finite decimal literals: surrounding
whitespace stripped, optional sign, decimal mantissa, optional exponent.
The inf, nan and underscore-separator forms never arise from the inputs of
this repository and are outside the model. -/
def parsePyFloat (s : String) : Option Dec :=
  match trimWs s.data with
  | '+' :: t => parseMantissaAndExp t
  | '-' :: t => (parseMantissaAndExp t).map (fun d => ⟨-d.num, d.exp⟩)
  | t => parseMantissaAndExp t

/-- Supported unit suffixes of the quantity branch, in source order. -/
def quantityUnits : List String := [" mm", "cm", "in", "m", "ft"]

/-- Python `any(conf_value.endswith(unit) for unit in (" mm", "cm", "in", "m", "ft"))`. -/
def hasSupportedUnit (s : String) : Bool :=
  quantityUnits.any (fun u => strEndsWith s u)

/-- One option of an enum parameter definition: UI-visible option name and
internal option value. -/
structure ParamOption where
  optionName : String
  option : String
deriving DecidableEq, Repr

/-- Parameter definition as the resolver reads it out of the fetched
schema: the typeName discriminator string, the internal parameter id, and
the fields the enum and quantity branches consult.  A missing typeName key
is modelled as the empty string, and missing range fields as `none`,
matching the `.get` accesses of the source. -/
structure ParamDef where
  typeName : String
  parameterId : String
  options : List ParamOption := []
  minValue : Option Dec := none
  maxValue : Option Dec := none
  units : Option String := none
deriving DecidableEq, Repr

/-- Resolved parameter entry sent back to the service. -/
structure ResolvedParam where
  parameterId : String
  parameterValue : PyVal
deriving DecidableEq, Repr

/-- Distinct `ValueError` raise sites of the resolver, named after the
specification error taxonomy. -/
inductive ResolveError where
  | unknownParameter
  | invalidEnumValue
  | unitMissing
  | numericParseError
  | typeMismatch
  | belowMinimum
  | aboveMaximum
  | unsupportedParameterType
deriving DecidableEq, Repr

/-- Python `f" {unit_raw}" if unit_raw else ""`: an absent or empty
(falsy) unit yields no suffix, otherwise a space and the unit. -/
def defaultUnit (units : Option String) : String :=
  match units with
  | some u => if u = "" then "" else " " ++ u
  | none => ""

/-- Python `min_val is not None and numeric_value < float(min_val)`. -/
def belowMinB (minValue : Option Dec) (x : Dec) : Bool :=
  match minValue with
  | some m => Dec.blt x m
  | none => false

/-- Python `max_val is not None and numeric_value > float(max_val)`. -/
def aboveMaxB (maxValue : Option Dec) (x : Dec) : Bool :=
  match maxValue with
  | some m => Dec.blt m x
  | none => false

/-- Body of the resolver loop for one name and raw value, embedding lines
158..210 of the source.  The dict comprehension that builds the valid
option map keeps the last entry for a repeated option name, modelled by
searching the reversed option list.  The quantity branch tests
`isinstance(x, str)` first and `isinstance(x, (int, float))` second; since
Python `bool` is a subclass of `int`, booleans take the numeric branch,
and within the `PyVal` domain the final quantity type-mismatch raise is
unreachable. -/
def resolveParam (config_schema : List (String × ParamDef)) (name : String)
    (conf_value : PyVal) : Except ResolveError ResolvedParam :=
  match config_schema.lookup name with
  | none => .error .unknownParameter
  | some d =>
    if d.typeName = "BTMConfigurationParameterEnum" then
      match conf_value with
      | .pyStr s =>
        match d.options.reverse.find? (fun o => o.optionName = s) with
        | some o => .ok ⟨d.parameterId, .pyStr o.option⟩
        | none => .error .invalidEnumValue
      | _ => .error .invalidEnumValue
    else if d.typeName = "BTMConfigurationParameterQuantity" then
      let step : Except ResolveError (Dec × PyVal) :=
        match conf_value with
        | .pyStr s =>
          if hasSupportedUnit s then
            match parsePyFloat (firstTok s) with
            | some x => .ok (x, .pyStr s)
            | none => .error .numericParseError
          else .error .unitMissing
        | v => .ok (v.numericValue, .pyStr (v.pyRepr ++ defaultUnit d.units))
      match step with
      | .error e => .error e
      | .ok (x, rv) =>
        if belowMinB d.minValue x then .error .belowMinimum
        else if aboveMaxB d.maxValue x then .error .aboveMaximum
        else .ok ⟨d.parameterId, rv⟩
    else if d.typeName = "BTMConfigurationParameterBoolean" then
      match conf_value with
      | .pyBool b => .ok ⟨d.parameterId, .pyBool b⟩
      | _ => .error .typeMismatch
    else .error .unsupportedParameterType

/-- The resolver `resolve_configuration_parameters`: each entry of the
configuration mapping, in order, is resolved by `resolveParam`; the first
failure aborts the whole resolution. -/
def resolve_configuration_parameters (config : List (String × PyVal))
    (config_schema : List (String × ParamDef)) : Except ResolveError (List ResolvedParam) :=
  match config with
  | [] => .ok []
  | (n, v) :: rest => do
    let r ← resolveParam config_schema n v
    let rs ← resolve_configuration_parameters rest config_schema
    pure (r :: rs)

/-- Python exception classes distinguished by the model. -/
inductive PyExn where
  | typeError
  | valueError
  | indexError
  | serviceError
deriving DecidableEq, Repr

/-- One entry of the version list returned by the version-list fetch. -/
structure VersionEntry where
  id : String
  name : String
deriving DecidableEq, Repr

/-- The function `get_version_name`, with the fetched version list as an
explicit argument.  A non-version context returns `none` immediately; in a
version context the list is searched for the version id, and the raise on
a missing id is caught by the surrounding handler, which logs the error
and returns `none` — so a missing version id also yields `none`. -/
def get_version_name (wvm : String) (vid : Option String) (versions : List VersionEntry) :
    Option String :=
  if wvm ≠ "v" then none
  else
    match versions.find? (fun ve => some ve.id = vid) with
    | some ve => some ve.name
    | none => none

/-- The function `generate_file_suffix`.  In a version context it computes
the Python expression `"" + get_version_name(ctx)`; when the version name
degraded to `None`, that concatenation raises `TypeError`, modelled as the
error case.  In a workspace or microversion context the suffix is the
literal `wip`. -/
def generate_file_suffix (wvm : String) (vid : Option String)
    (versions : List VersionEntry) : Except PyExn String :=
  if wvm = "v" then
    match get_version_name wvm vid versions with
    | some n => .ok ("" ++ n)
    | none => .error .typeError
  else .ok ("" ++ "wip")

/-- Translation status as returned by the status fetch. -/
structure TransStatus where
  requestState : String
  resultExternalDataIds : List String
deriving DecidableEq, Repr

/-- Poll loop of `wait_for_translation_request`, from poll index `k` with
the given fuel: each iteration is a blocking `time.sleep(5)` followed by a
status fetch; the loop exits only when the fetched requestState equals the
terminal marker DONE, returning that status together with the total
seconds slept.  `statuses n` is the status the service returns at the
n-th fetch; exhausting the fuel (`none`) models a loop that is still
polling, since the source loop has no other exit. -/
def waitLoopFrom (statuses : Nat → TransStatus) (k : Nat) : Nat → Option (TransStatus × Nat)
  | 0 => none
  | fuel + 1 =>
    let r := statuses k
    if r.requestState = "DONE" then some (r, 5 * (k + 1))
    else waitLoopFrom statuses (k + 1) fuel

/-- The function `wait_for_translation_request`, starting at the first
poll. -/
def wait_for_translation_request (statuses : Nat → TransStatus) (fuel : Nat) :
    Option (TransStatus × Nat) :=
  waitLoopFrom statuses 0 fuel

/-- One entry of the part list returned by the part-list fetch. -/
structure PartEntry where
  name : String
  partId : String
deriving DecidableEq, Repr

/-- The function `get_part_id`, with the outcome of the part-list fetch as
an explicit argument: the first part whose name equals the requested name
yields its part id, otherwise the part-not-found `ValueError` is
raised. -/
def get_part_id (partsRes : Except PyExn (List PartEntry)) (partToExport : String) :
    Except PyExn String :=
  match partsRes with
  | .error e => .error e
  | .ok parts =>
    match parts.find? (fun p => p.name = partToExport) with
    | some p => .ok p.partId
    | none => .error .valueError

/-- One named export specification from the configuration file. -/
structure ExportSpec where
  name : String
  config : List (String × PyVal)
deriving DecidableEq, Repr

/-- One unit of work of the orchestrator: one format, one part name, one
export specification. -/
structure ExportTask where
  formatName : String
  partName : String
  spec : ExportSpec
deriving DecidableEq, Repr

/-- Batch construction of `main`: the nested loops over formats, then
parts, then export specifications, in that nesting order. -/
def buildTasks (formats parts : List String) (specs : List ExportSpec) : List ExportTask :=
  formats.flatMap fun f => parts.flatMap fun p => specs.map fun e => ⟨f, p, e⟩

/-- Output filename of a task, from line 321 of the source: part name,
spec name and suffix joined by hyphens, then a dot and the lowercased
format name. -/
def taskFilename (suffix : String) (t : ExportTask) : String :=
  t.partName ++ "-" ++ t.spec.name ++ "-" ++ suffix ++ "." ++ strLower t.formatName

/-- Remote-service behaviour one task observes, one field per network
interaction of the pipeline: the outcome of the configuration encoding,
of the part-list fetch, of the translation submission, the stream of
translation statuses, the poll fuel available to the model, and the
outcome of the artifact download. -/
structure TaskEnv where
  encodeRes : Except PyExn (String × String)
  partsRes : Except PyExn (List PartEntry)
  translationRes : Except PyExn String
  pollStatuses : Nat → TransStatus
  pollFuel : Nat
  downloadRes : Except PyExn Unit

/-- Outcome of the body of `export_configuration` before its exception
handler: an exception raised at some stage, a poll loop still running
after the available fuel, or a downloaded file. -/
inductive PipelineResult where
  | raised (e : PyExn)
  | polling
  | done (filename : String)
deriving DecidableEq, Repr

/-- Body of `export_configuration`, lines 303..323 of the source: resolve,
encode, locate the part, submit the translation, poll, then download to
the derived filename.  Indexing the empty external-data id list raises
`IndexError`. -/
def run_pipeline (config_schema : List (String × ParamDef)) (exportSpec : ExportSpec)
    (partName formatName suffix : String) (env : TaskEnv) : PipelineResult :=
  match resolve_configuration_parameters exportSpec.config config_schema with
  | .error _ => .raised .valueError
  | .ok _resolved =>
    match env.encodeRes with
    | .error e => .raised e
    | .ok (_encodedId, _queryParam) =>
      match get_part_id env.partsRes partName with
      | .error e => .raised e
      | .ok _PID =>
        match env.translationRes with
        | .error e => .raised e
        | .ok _TID =>
          match wait_for_translation_request env.pollStatuses env.pollFuel with
          | none => .polling
          | some (status, _slept) =>
            match status.resultExternalDataIds.head? with
            | none => .raised .indexError
            | some _FID =>
              match env.downloadRes with
              | .error e => .raised e
              | .ok _ => .done (taskFilename suffix ⟨formatName, partName, exportSpec⟩)

/-- Recorded outcome of one task after the exception handler of
`export_configuration`: a written file, a caught-and-logged failure
carrying the spec name used in the log message, or a task still inside
the poll loop. -/
inductive TaskOutcome where
  | success (filename : String)
  | failedLogged (specName : String)
  | stillPolling
deriving DecidableEq, Repr

/-- The function `export_configuration`: its whole body runs under one
`try`, and any exception is caught and logged with the spec name, so the
function itself never raises. -/
def export_configuration (config_schema : List (String × ParamDef)) (exportSpec : ExportSpec)
    (partName formatName suffix : String) (env : TaskEnv) : TaskOutcome :=
  match run_pipeline config_schema exportSpec partName formatName suffix env with
  | .raised _ => .failedLogged exportSpec.name
  | .polling => .stillPolling
  | .done fn => .success fn

/-- Execution of a scheduled task list: task `i` (in submission order)
runs `export_configuration` against its own observed service behaviour
`envs i`.  Tasks share only the read-only schema and suffix. -/
def orchestrateFrom (config_schema : List (String × ParamDef)) (suffix : String)
    (envs : Nat → TaskEnv) : Nat → List ExportTask → List TaskOutcome
  | _, [] => []
  | i, t :: ts =>
    export_configuration config_schema t.spec t.partName t.formatName suffix (envs i)
      :: orchestrateFrom config_schema suffix envs (i + 1) ts

/-- Execution of the whole batch from the first task. -/
def orchestrate (config_schema : List (String × ParamDef)) (suffix : String)
    (tasks : List ExportTask) (envs : Nat → TaskEnv) : List TaskOutcome :=
  orchestrateFrom config_schema suffix envs 0 tasks

/-- Network interactions of the pre-scheduling phase of `main`, plus an
opaque marker for the interactions a scheduled task performs. -/
inductive NetEvent where
  | versionsFetch
  | schemaFetch
  | taskNet
deriving DecidableEq, Repr

/-- Input of one run of `main`, with each fetched remote resource given
explicitly: the workspace/version/microversion discriminator and version
id from the URL, the version list, the configuration schema, and the
configuration file contents. -/
structure RunInput where
  wvm : String
  vid : Option String
  versions : List VersionEntry
  config_schema : List (String × ParamDef)
  formats : List String
  parts : List String
  configurationsToExport : List ExportSpec

/-- How a run of `main` ends before or at scheduling: an empty formats or
parts list exits early; an uncaught exception during suffix derivation
crashes the run; a pre-flight validation failure returns from `main`;
otherwise the full task batch is scheduled. -/
inductive RunResult where
  | configError
  | crashed (e : PyExn)
  | abortedValidation
  | scheduled (tasks : List ExportTask)
deriving DecidableEq, Repr

/-- Whether resolution of one export specification fails against the
schema; every resolver failure is a `ValueError`, which the pre-flight
loop of `main` catches. -/
def resolutionFails (config_schema : List (String × ParamDef)) (e : ExportSpec) : Bool :=
  match resolve_configuration_parameters e.config config_schema with
  | .error _ => true
  | .ok _ => false

/-- The pre-scheduling control flow of `main`, lines 341..391 of the
source, as the list of network events it performs and how it ends.  The
suffix is derived (fetching the version list when the URL names a
version) before the schema fetch; then every export specification is
validated, and only if all pass is the cross-product batch scheduled.
Events of scheduled tasks are abstracted to one marker per task. -/
def mainRun (inp : RunInput) : List NetEvent × RunResult :=
  if inp.formats.isEmpty || inp.parts.isEmpty then ([], .configError)
  else
    let suffixEvents := if inp.wvm = "v" then [NetEvent.versionsFetch] else []
    match generate_file_suffix inp.wvm inp.vid inp.versions with
    | .error e => (suffixEvents, .crashed e)
    | .ok _suffix =>
      let events := suffixEvents ++ [NetEvent.schemaFetch]
      if inp.configurationsToExport.any (resolutionFails inp.config_schema) then
        (events, .abortedValidation)
      else
        let tasks := buildTasks inp.formats inp.parts inp.configurationsToExport
        (events ++ tasks.map (fun _ => NetEvent.taskNet), .scheduled tasks)

/-- Reduction of the resolver at a boolean-kind definition. -/
theorem resolveParam_bool_def {config_schema : List (String × ParamDef)} {name : String}
    {d : ParamDef} (hlook : config_schema.lookup name = some d)
    (htype : d.typeName = "BTMConfigurationParameterBoolean") (v : PyVal) :
    resolveParam config_schema name v =
      match v with
      | .pyBool b => .ok ⟨d.parameterId, .pyBool b⟩
      | _ => .error .typeMismatch := by
  unfold resolveParam
  rw [hlook]
  simp only [htype]
  simp

/-- Reduction of the resolver at an enum-kind definition. -/
theorem resolveParam_enum_def {config_schema : List (String × ParamDef)} {name : String}
    {d : ParamDef} (hlook : config_schema.lookup name = some d)
    (htype : d.typeName = "BTMConfigurationParameterEnum") (v : PyVal) :
    resolveParam config_schema name v =
      match v with
      | .pyStr s =>
        (match d.options.reverse.find? (fun o => o.optionName = s) with
          | some o => .ok ⟨d.parameterId, .pyStr o.option⟩
          | none => .error .invalidEnumValue)
      | _ => .error .invalidEnumValue := by
  unfold resolveParam
  rw [hlook]
  simp only [htype]
  simp

/-- Reduction of the resolver at a quantity-kind definition. -/
theorem resolveParam_quantity_def {config_schema : List (String × ParamDef)} {name : String}
    {d : ParamDef} (hlook : config_schema.lookup name = some d)
    (htype : d.typeName = "BTMConfigurationParameterQuantity") (v : PyVal) :
    resolveParam config_schema name v =
      (match
        (match v with
          | .pyStr s =>
            if hasSupportedUnit s then
              match parsePyFloat (firstTok s) with
              | some x => Except.ok (x, PyVal.pyStr s)
              | none => Except.error ResolveError.numericParseError
            else Except.error ResolveError.unitMissing
          | v => Except.ok (v.numericValue, PyVal.pyStr (v.pyRepr ++ defaultUnit d.units)) :
            Except ResolveError (Dec × PyVal)) with
      | .error e => .error e
      | .ok (x, rv) =>
        if belowMinB d.minValue x then .error .belowMinimum
        else if aboveMaxB d.maxValue x then .error .aboveMaximum
        else .ok ⟨d.parameterId, rv⟩) := by
  unfold resolveParam
  rw [hlook]
  simp only [htype]
  simp

/-- Finding by option name in a list with no repeated option names returns
the member itself. -/
theorem find?_eq_self_of_nodup_names {l : List ParamOption}
    (h : (l.map ParamOption.optionName).Nodup) {o : ParamOption} (ho : o ∈ l) :
    l.find? (fun p => p.optionName = o.optionName) = some o := by
  induction l with
  | nil => cases ho
  | cons a t ih =>
    rw [List.map_cons, List.nodup_cons] at h
    rcases List.mem_cons.mp ho with rfl | hmem
    · rw [List.find?_cons_of_pos]
      simp
    · have hne : a.optionName ≠ o.optionName := fun he =>
        h.1 (he ▸ List.mem_map_of_mem ParamOption.optionName hmem)
      rw [List.find?_cons_of_neg _ (by simp [hne])]
      exact ih h.2 hmem

/-- Quantity definition with range 5..50 and unit mm, as in the
documented end-to-end scenario. -/
def binHeightDef : ParamDef where
  typeName := "BTMConfigurationParameterQuantity"
  parameterId := "bh"
  minValue := some ⟨5, 0⟩
  maxValue := some ⟨50, 0⟩
  units := some "mm"

/-- Quantity definition with no declared range and no declared unit. -/
def depthDef : ParamDef where
  typeName := "BTMConfigurationParameterQuantity"
  parameterId := "dp"

/-- Quantity definition with a unit but no declared range. -/
def widthDef : ParamDef where
  typeName := "BTMConfigurationParameterQuantity"
  parameterId := "wd"
  units := some "mm"

/-- Quantity definition with a minimum of 2 and unit mm. -/
def labelWidthDef : ParamDef where
  typeName := "BTMConfigurationParameterQuantity"
  parameterId := "lw"
  minValue := some ⟨2, 0⟩
  units := some "mm"

/-- Boolean definition. -/
def scoopDef : ParamDef where
  typeName := "BTMConfigurationParameterBoolean"
  parameterId := "sc"

/-- Enum definition with two options. -/
def colorDef : ParamDef where
  typeName := "BTMConfigurationParameterEnum"
  parameterId := "co"
  options := [⟨"Red", "RED"⟩, ⟨"Deep Blue", "BLUE"⟩]

/-- Example schema used by the concrete witnesses below, shaped like the
schema of the documented end-to-end scenarios. -/
def exSchema : List (String × ParamDef) :=
  [("Bin height", binHeightDef), ("depth", depthDef), ("width", widthDef),
   ("labelWidth", labelWidthDef), ("scoop", scoopDef), ("color", colorDef)]

/-- C7: for a Boolean-kind parameter, resolution fails with TypeMismatch
unless the raw value is exactly a boolean — numeric values such as 0 and 1
and strings such as "true" are rejected — and a genuine boolean resolves
to itself as the parameter value. -/
theorem boolean_param_exact (config_schema : List (String × ParamDef)) (name : String)
    (d : ParamDef) (hlook : config_schema.lookup name = some d)
    (htype : d.typeName = "BTMConfigurationParameterBoolean") :
    (∀ b : Bool, resolveParam config_schema name (.pyBool b) =
        .ok ⟨d.parameterId, .pyBool b⟩)
    ∧ (∀ v : PyVal, (∀ b : Bool, v ≠ .pyBool b) →
        resolveParam config_schema name v = .error .typeMismatch) := by
  constructor
  · intro b
    rw [resolveParam_bool_def hlook htype]
  · intro v hv
    rw [resolveParam_bool_def hlook htype]
    cases v with
    | pyBool b => exact absurd rfl (hv b)
    | pyInt n => rfl
    | pyFloat q => rfl
    | pyStr s => rfl

/-- Witness for C7 on the example schema: a genuine boolean resolves to
itself; 0, 1 and "true" are rejected with TypeMismatch. -/
theorem boolean_param_exact_witness :
    resolveParam exSchema "scoop" (.pyBool true) = .ok ⟨"sc", .pyBool true⟩
    ∧ resolveParam exSchema "scoop" (.pyInt 0) = .error .typeMismatch
    ∧ resolveParam exSchema "scoop" (.pyInt 1) = .error .typeMismatch
    ∧ resolveParam exSchema "scoop" (.pyStr "true") = .error .typeMismatch := by
  have h := boolean_param_exact exSchema "scoop" scoopDef (by decide) rfl
  exact ⟨h.1 true, h.2 (.pyInt 0) (by decide), h.2 (.pyInt 1) (by decide),
    h.2 (.pyStr "true") (by decide)⟩

/-- C8: for an Enum-kind parameter whose display names do not repeat,
resolving a raw value equal to one of the display names yields exactly the
corresponding internal value, and any other raw value fails with
InvalidEnumValue. -/
theorem enum_param_exact (config_schema : List (String × ParamDef)) (name : String)
    (d : ParamDef) (hlook : config_schema.lookup name = some d)
    (htype : d.typeName = "BTMConfigurationParameterEnum")
    (hnodup : (d.options.map ParamOption.optionName).Nodup) :
    (∀ o ∈ d.options, resolveParam config_schema name (.pyStr o.optionName) =
        .ok ⟨d.parameterId, .pyStr o.option⟩)
    ∧ (∀ v : PyVal, (∀ o ∈ d.options, v ≠ .pyStr o.optionName) →
        resolveParam config_schema name v = .error .invalidEnumValue) := by
  constructor
  · intro o ho
    rw [resolveParam_enum_def hlook htype]
    have hfind : d.options.reverse.find? (fun p => p.optionName = o.optionName) = some o := by
      apply find?_eq_self_of_nodup_names
      · rw [List.map_reverse]
        exact List.nodup_reverse.mpr hnodup
      · exact List.mem_reverse.mpr ho
    simp [hfind]
  · intro v hv
    rw [resolveParam_enum_def hlook htype]
    cases v with
    | pyStr s =>
      have hfind : d.options.reverse.find? (fun p => p.optionName = s) = none := by
        rw [List.find?_eq_none]
        intro p hp
        simp only [decide_eq_true_eq]
        intro he
        exact hv p (List.mem_reverse.mp hp) (by rw [he])
      simp [hfind]
    | pyInt n => rfl
    | pyFloat q => rfl
    | pyBool b => rfl

/-- Witness for C8 on the example schema: each display name maps to its
internal value; a case variant and a near-match fail with
InvalidEnumValue. -/
theorem enum_param_exact_witness :
    resolveParam exSchema "color" (.pyStr "Red") = .ok ⟨"co", .pyStr "RED"⟩
    ∧ resolveParam exSchema "color" (.pyStr "Deep Blue") = .ok ⟨"co", .pyStr "BLUE"⟩
    ∧ resolveParam exSchema "color" (.pyStr "red") = .error .invalidEnumValue
    ∧ resolveParam exSchema "color" (.pyStr "Deep Blu") = .error .invalidEnumValue
    ∧ resolveParam exSchema "color" (.pyInt 3) = .error .invalidEnumValue := by
  have h := enum_param_exact exSchema "color" colorDef (by decide) rfl (by decide)
  exact ⟨h.1 ⟨"Red", "RED"⟩ (by decide), h.1 ⟨"Deep Blue", "BLUE"⟩ (by decide),
    h.2 (.pyStr "red") (by decide), h.2 (.pyStr "Deep Blu") (by decide),
    h.2 (.pyInt 3) (by decide)⟩

/-- Numeric value of a bare numeric raw value in the sense of the
specification: an int or a float, not a boolean and not a string. -/
def bareNumeric : PyVal → Option Dec
  | .pyInt n => some ⟨n, 0⟩
  | .pyFloat q => some q
  | _ => none

/-- C5 counterexample: a quantity string whose unit suffix is supported
and whose numeric prefix parses can still fail resolution, with
AboveMaximum, when the parsed value exceeds the declared maximum — the
resolved value is then not the original string. -/
theorem quantity_string_range_cex :
    hasSupportedUnit "60 mm" = true
    ∧ parsePyFloat (firstTok "60 mm") = some ⟨60, 0⟩
    ∧ resolveParam exSchema "Bin height" (.pyStr "60 mm") = .error .aboveMaximum :=
  ⟨by decide, by decide, rfl⟩

/-- C5 (amended): for a Quantity-kind parameter given a string raw value,
an unsupported unit suffix fails with UnitMissing; a supported suffix
whose numeric prefix (the first whitespace-delimited token) does not
parse as a float fails with NumericParseError; otherwise, provided the
parsed value passes the declared range check, the resolved value is the
original string unchanged. -/
theorem quantity_string_resolution (config_schema : List (String × ParamDef)) (name : String)
    (d : ParamDef) (hlook : config_schema.lookup name = some d)
    (htype : d.typeName = "BTMConfigurationParameterQuantity") (s : String) :
    (hasSupportedUnit s = false →
      resolveParam config_schema name (.pyStr s) = .error .unitMissing)
    ∧ (hasSupportedUnit s = true → parsePyFloat (firstTok s) = none →
      resolveParam config_schema name (.pyStr s) = .error .numericParseError)
    ∧ (∀ x : Dec, hasSupportedUnit s = true → parsePyFloat (firstTok s) = some x →
      belowMinB d.minValue x = false → aboveMaxB d.maxValue x = false →
      resolveParam config_schema name (.pyStr s) = .ok ⟨d.parameterId, .pyStr s⟩) := by
  refine ⟨?_, ?_, ?_⟩
  · intro hu
    rw [resolveParam_quantity_def hlook htype]
    simp [hu]
  · intro hu hp
    rw [resolveParam_quantity_def hlook htype]
    simp [hu, hp]
  · intro x hu hp hmin hmax
    rw [resolveParam_quantity_def hlook htype]
    simp [hu, hp, hmin, hmax]

/-- Witness for C5 on the example schema: an unsupported suffix fails
with UnitMissing, a supported suffix with an unparseable prefix fails
with NumericParseError, and an in-range unit string resolves to itself. -/
theorem quantity_string_resolution_witness :
    resolveParam exSchema "Bin height" (.pyStr "60 furlong") = .error .unitMissing
    ∧ resolveParam exSchema "Bin height" (.pyStr "abc mm") = .error .numericParseError
    ∧ resolveParam exSchema "Bin height" (.pyStr "15 mm") = .ok ⟨"bh", .pyStr "15 mm"⟩ := by
  refine ⟨?_, ?_, ?_⟩
  · exact ((quantity_string_resolution exSchema "Bin height" binHeightDef (by decide) rfl
      "60 furlong").1 (by decide))
  · exact ((quantity_string_resolution exSchema "Bin height" binHeightDef (by decide) rfl
      "abc mm").2.1 (by decide) (by decide))
  · exact ((quantity_string_resolution exSchema "Bin height" binHeightDef (by decide) rfl
      "15 mm").2.2 ⟨15, 0⟩ (by decide) (by decide) (by decide) (by decide))

/-- C6: for a Quantity-kind parameter given a bare numeric raw value, the
resolved value is the rendered number with the declared unit (if any)
appended as a space-separated suffix, and the numeric value is checked
against the declared range inclusively: strictly below a declared minimum
fails with BelowMinimum, strictly above a declared maximum fails with
AboveMaximum, and otherwise — at a bound, or with no declared bound —
resolution succeeds; a unit-suffixed string over the maximum likewise
fails with AboveMaximum. -/
theorem quantity_numeric_resolution (config_schema : List (String × ParamDef)) (name : String)
    (d : ParamDef) (hlook : config_schema.lookup name = some d)
    (htype : d.typeName = "BTMConfigurationParameterQuantity") :
    (∀ v : PyVal, ∀ x : Dec, bareNumeric v = some x →
      (belowMinB d.minValue x = false → aboveMaxB d.maxValue x = false →
        resolveParam config_schema name v =
          .ok ⟨d.parameterId, .pyStr (v.pyRepr ++ defaultUnit d.units)⟩)
      ∧ (belowMinB d.minValue x = true →
        resolveParam config_schema name v = .error .belowMinimum)
      ∧ (belowMinB d.minValue x = false → aboveMaxB d.maxValue x = true →
        resolveParam config_schema name v = .error .aboveMaximum))
    ∧ (∀ s : String, ∀ x : Dec, hasSupportedUnit s = true →
      parsePyFloat (firstTok s) = some x →
      belowMinB d.minValue x = false → aboveMaxB d.maxValue x = true →
      resolveParam config_schema name (.pyStr s) = .error .aboveMaximum) := by
  constructor
  · intro v x hx
    refine ⟨?_, ?_, ?_⟩
    · intro hmin hmax
      cases v with
      | pyInt n =>
        simp only [bareNumeric, Option.some.injEq] at hx
        subst hx
        rw [resolveParam_quantity_def hlook htype]
        simp [PyVal.numericValue, hmin, hmax]
      | pyFloat q =>
        simp only [bareNumeric, Option.some.injEq] at hx
        subst hx
        rw [resolveParam_quantity_def hlook htype]
        simp [PyVal.numericValue, hmin, hmax]
      | pyStr s => simp [bareNumeric] at hx
      | pyBool b => simp [bareNumeric] at hx
    · intro hmin
      cases v with
      | pyInt n =>
        simp only [bareNumeric, Option.some.injEq] at hx
        subst hx
        rw [resolveParam_quantity_def hlook htype]
        simp [PyVal.numericValue, hmin]
      | pyFloat q =>
        simp only [bareNumeric, Option.some.injEq] at hx
        subst hx
        rw [resolveParam_quantity_def hlook htype]
        simp [PyVal.numericValue, hmin]
      | pyStr s => simp [bareNumeric] at hx
      | pyBool b => simp [bareNumeric] at hx
    · intro hmin hmax
      cases v with
      | pyInt n =>
        simp only [bareNumeric, Option.some.injEq] at hx
        subst hx
        rw [resolveParam_quantity_def hlook htype]
        simp [PyVal.numericValue, hmin, hmax]
      | pyFloat q =>
        simp only [bareNumeric, Option.some.injEq] at hx
        subst hx
        rw [resolveParam_quantity_def hlook htype]
        simp [PyVal.numericValue, hmin, hmax]
      | pyStr s => simp [bareNumeric] at hx
      | pyBool b => simp [bareNumeric] at hx
  · intro s x hu hp hmin hmax
    rw [resolveParam_quantity_def hlook htype]
    simp [hu, hp, hmin, hmax]

/-- Witness for C6 on the example schema: 15 against range 5..50 with
unit mm resolves to the string 15 mm; 60 as a bare number and the string
60 mm both fail with AboveMaximum; the bounds 5 and 50 themselves
succeed; 4 fails with BelowMinimum; with no declared bounds and no unit,
7 resolves to the bare rendered number. -/
theorem quantity_numeric_resolution_witness :
    resolveParam exSchema "Bin height" (.pyInt 15) = .ok ⟨"bh", .pyStr "15 mm"⟩
    ∧ resolveParam exSchema "Bin height" (.pyInt 60) = .error .aboveMaximum
    ∧ resolveParam exSchema "Bin height" (.pyStr "60 mm") = .error .aboveMaximum
    ∧ resolveParam exSchema "Bin height" (.pyInt 5) = .ok ⟨"bh", .pyStr "5 mm"⟩
    ∧ resolveParam exSchema "Bin height" (.pyInt 50) = .ok ⟨"bh", .pyStr "50 mm"⟩
    ∧ resolveParam exSchema "Bin height" (.pyInt 4) = .error .belowMinimum
    ∧ resolveParam exSchema "depth" (.pyInt 7) = .ok ⟨"dp", .pyStr "7"⟩ := by
  have h := quantity_numeric_resolution exSchema "Bin height" binHeightDef (by decide) rfl
  have hd := quantity_numeric_resolution exSchema "depth" depthDef (by decide) rfl
  refine ⟨?_, ?_, ?_, ?_, ?_, ?_, ?_⟩
  · exact (h.1 (.pyInt 15) ⟨15, 0⟩ rfl).1 (by decide) (by decide)
  · exact (h.1 (.pyInt 60) ⟨60, 0⟩ rfl).2.2 (by decide) (by decide)
  · exact h.2 "60 mm" ⟨60, 0⟩ (by decide) (by decide) (by decide) (by decide)
  · exact (h.1 (.pyInt 5) ⟨5, 0⟩ rfl).1 (by decide) (by decide)
  · exact (h.1 (.pyInt 50) ⟨50, 0⟩ rfl).1 (by decide) (by decide)
  · exact (h.1 (.pyInt 4) ⟨4, 0⟩ rfl).2.1 (by decide)
  · exact (hd.1 (.pyInt 7) ⟨7, 0⟩ rfl).1 (by decide) (by decide)

/-- C10: for a Quantity-kind parameter a boolean raw value is accepted
rather than rejected: it takes the numeric branch with True counting as 1
and False as 0 for the range check, and on success the resolved value is
the string True or False followed by the declared unit suffix. -/
theorem quantity_bool_accepted (config_schema : List (String × ParamDef)) (name : String)
    (d : ParamDef) (hlook : config_schema.lookup name = some d)
    (htype : d.typeName = "BTMConfigurationParameterQuantity") (b : Bool) :
    (belowMinB d.minValue ⟨if b then 1 else 0, 0⟩ = false →
      aboveMaxB d.maxValue ⟨if b then 1 else 0, 0⟩ = false →
      resolveParam config_schema name (.pyBool b) =
        .ok ⟨d.parameterId, .pyStr ((if b then "True" else "False") ++ defaultUnit d.units)⟩)
    ∧ (belowMinB d.minValue ⟨if b then 1 else 0, 0⟩ = true →
      resolveParam config_schema name (.pyBool b) = .error .belowMinimum)
    ∧ (belowMinB d.minValue ⟨if b then 1 else 0, 0⟩ = false →
      aboveMaxB d.maxValue ⟨if b then 1 else 0, 0⟩ = true →
      resolveParam config_schema name (.pyBool b) = .error .aboveMaximum) := by
  refine ⟨?_, ?_, ?_⟩
  · intro hmin hmax
    rw [resolveParam_quantity_def hlook htype]
    cases b <;> simp_all [PyVal.numericValue, PyVal.pyRepr]
  · intro hmin
    rw [resolveParam_quantity_def hlook htype]
    cases b <;> simp_all [PyVal.numericValue]
  · intro hmin hmax
    rw [resolveParam_quantity_def hlook htype]
    cases b <;> simp_all [PyVal.numericValue]

/-- Witness for C10 on the example schema: a boolean against the
unit-only quantity resolves to True mm; against the unitless one to True;
True counts as 1, so it is below the minimum 2 of labelWidth, and below
the minimum 5 of Bin height. -/
theorem quantity_bool_accepted_witness :
    resolveParam exSchema "width" (.pyBool true) = .ok ⟨"wd", .pyStr "True mm"⟩
    ∧ resolveParam exSchema "depth" (.pyBool true) = .ok ⟨"dp", .pyStr "True"⟩
    ∧ resolveParam exSchema "depth" (.pyBool false) = .ok ⟨"dp", .pyStr "False"⟩
    ∧ resolveParam exSchema "labelWidth" (.pyBool true) = .error .belowMinimum
    ∧ resolveParam exSchema "Bin height" (.pyBool true) = .error .belowMinimum := by
  refine ⟨?_, ?_, ?_, ?_, ?_⟩
  · exact (quantity_bool_accepted exSchema "width" widthDef (by decide) rfl true).1
      (by decide) (by decide)
  · exact (quantity_bool_accepted exSchema "depth" depthDef (by decide) rfl true).1
      (by decide) (by decide)
  · exact (quantity_bool_accepted exSchema "depth" depthDef (by decide) rfl false).1
      (by decide) (by decide)
  · exact (quantity_bool_accepted exSchema "labelWidth" labelWidthDef (by decide) rfl true).2.1
      (by decide)
  · exact (quantity_bool_accepted exSchema "Bin height" binHeightDef (by decide) rfl true).2.1
      (by decide)

/-- A successful exit of the poll loop names the first DONE status at or
after the starting index, with five seconds slept per poll so far. -/
theorem waitLoopFrom_eq_some {statuses : Nat → TransStatus} :
    ∀ (fuel k : Nat) (r : TransStatus) (slept : Nat),
      waitLoopFrom statuses k fuel = some (r, slept) →
      ∃ n, k ≤ n ∧ n < k + fuel ∧ (statuses n).requestState = "DONE" ∧ r = statuses n
        ∧ slept = 5 * (n + 1)
        ∧ ∀ m, k ≤ m → m < n → (statuses m).requestState ≠ "DONE" := by
  intro fuel
  induction fuel with
  | zero => intro k r slept h; simp [waitLoopFrom] at h
  | succ fuel ih =>
    intro k r slept h
    rw [waitLoopFrom] at h
    by_cases hd : (statuses k).requestState = "DONE"
    · rw [if_pos hd] at h
      obtain ⟨hr, hs⟩ := Prod.mk.injEq .. ▸ Option.some.injEq .. ▸ h
      refine ⟨k, le_refl k, by omega, hd, hr.symm, hs.symm, ?_⟩
      intro m hm1 hm2
      omega
    · rw [if_neg hd] at h
      obtain ⟨n, hn1, hn2, hn3, hn4, hn5, hn6⟩ := ih (k + 1) r slept h
      refine ⟨n, by omega, by omega, hn3, hn4, hn5, ?_⟩
      intro m hm1 hm2
      rcases Nat.eq_or_lt_of_le hm1 with rfl | hlt
      · exact hd
      · exact hn6 m hlt hm2

/-- A status stream that never reports DONE keeps the loop running for
any amount of fuel. -/
theorem waitLoopFrom_eq_none {statuses : Nat → TransStatus}
    (hnever : ∀ n, (statuses n).requestState ≠ "DONE") :
    ∀ (fuel k : Nat), waitLoopFrom statuses k fuel = none := by
  intro fuel
  induction fuel with
  | zero => intro k; rfl
  | succ fuel ih =>
    intro k
    rw [waitLoopFrom, if_neg (hnever k)]
    exact ih (k + 1)

/-- C3: the poll loop sleeps a fixed five-second interval before each
status fetch and repeats until the fetched requestState equals the
terminal marker DONE; any status it returns is the first DONE status and
nothing else, and on a stream that never reaches DONE it returns nothing
for every amount of fuel — the source loop has no timeout and no failure
terminal state. -/
theorem poll_loop_done_only (statuses : Nat → TransStatus) (fuel : Nat) :
    (∀ (r : TransStatus) (slept : Nat),
      wait_for_translation_request statuses fuel = some (r, slept) →
      r.requestState = "DONE"
      ∧ ∃ n, n < fuel ∧ r = statuses n ∧ slept = 5 * (n + 1)
        ∧ ∀ m, m < n → (statuses m).requestState ≠ "DONE")
    ∧ ((∀ n, (statuses n).requestState ≠ "DONE") →
      wait_for_translation_request statuses fuel = none) := by
  constructor
  · intro r slept h
    obtain ⟨n, hn1, hn2, hn3, hn4, hn5, hn6⟩ := waitLoopFrom_eq_some fuel 0 r slept h
    exact ⟨hn4 ▸ hn3, n, by omega, hn4, hn5, fun m hm => hn6 m (Nat.zero_le m) hm⟩
  · intro hnever
    exact waitLoopFrom_eq_none hnever fuel 0

/-- Status stream that reports ACTIVE twice and then DONE. -/
def statusesEx : Nat → TransStatus :=
  fun n => if n < 2 then ⟨"ACTIVE", []⟩ else ⟨"DONE", ["fid"]⟩

/-- Status stream that never reports DONE. -/
def statusesStuck : Nat → TransStatus :=
  fun _ => ⟨"ACTIVE", []⟩

/-- Witness for C3: on the ACTIVE-ACTIVE-DONE stream the loop returns the
DONE status after three polls and fifteen seconds slept; on the stuck
stream it returns nothing. -/
theorem poll_loop_done_only_witness :
    wait_for_translation_request statusesEx 5 = some (⟨"DONE", ["fid"]⟩, 15)
    ∧ (⟨"DONE", ["fid"]⟩ : TransStatus).requestState = "DONE"
    ∧ wait_for_translation_request statusesStuck 5 = none := by
  refine ⟨rfl, ?_, ?_⟩
  · exact ((poll_loop_done_only statusesEx 5).1 ⟨"DONE", ["fid"]⟩ 15 rfl).1
  · exact (poll_loop_done_only statusesStuck 5).2 (fun n => by simp [statusesStuck])

/-- C4 (code bug): when the document context is a named version whose id
is not in the fetched version list, `get_version_name` degrades to the
fallback `None` after logging, but `generate_file_suffix` then evaluates
the Python expression `"" + None`, which raises `TypeError` and aborts
the run instead of degrading to a fallback suffix; the found-version and
workspace cases behave normally. -/
theorem version_suffix_crash :
    get_version_name "v" (some "V1") [⟨"V2", "Release 2"⟩] = none
    ∧ generate_file_suffix "v" (some "V1") [⟨"V2", "Release 2"⟩] = .error .typeError
    ∧ generate_file_suffix "v" (some "V2") [⟨"V2", "Release 2"⟩] = .ok "Release 2"
    ∧ generate_file_suffix "w" none [] = .ok "wip" :=
  ⟨by decide, rfl, rfl, rfl⟩

/-- Export specification whose config fails resolution: a string where
the boolean parameter requires a genuine boolean. -/
def invalidSpec : ExportSpec := ⟨"bad", [("scoop", .pyStr "true")]⟩

/-- Run input referencing a named version, with one invalid export
specification. -/
def runInputV : RunInput where
  wvm := "v"
  vid := some "V2"
  versions := [⟨"V2", "Release 2"⟩]
  config_schema := exSchema
  formats := ["STEP"]
  parts := ["Part 1"]
  configurationsToExport := [invalidSpec]

/-- C1 counterexample: on a version-referenced run with an invalid spec,
the run does abort at pre-flight validation, but its network trace is the
version-list fetch followed by the schema fetch — a network side effect
beyond the schema fetch occurs, because the suffix derivation precedes
both the schema fetch and the validation gate. -/
theorem preflight_version_fetch_cex :
    resolutionFails runInputV.config_schema invalidSpec = true
    ∧ mainRun runInputV = ([.versionsFetch, .schemaFetch], .abortedValidation)
    ∧ NetEvent.versionsFetch ∈ (mainRun runInputV).1
    ∧ NetEvent.versionsFetch ≠ NetEvent.schemaFetch :=
  ⟨by decide, rfl, by decide, by decide⟩

/-- C1 (amended): a run with at least one export specification whose
config fails resolution never schedules any task batch, and performs no
network interaction beyond the schema fetch and the version-list fetch
done for suffix derivation. -/
theorem preflight_aborts (inp : RunInput)
    (hsomebad : ∃ e ∈ inp.configurationsToExport,
      resolutionFails inp.config_schema e = true) :
    (∀ ts : List ExportTask, (mainRun inp).2 ≠ .scheduled ts)
    ∧ ∀ ev ∈ (mainRun inp).1, ev = .versionsFetch ∨ ev = .schemaFetch := by
  have hany : inp.configurationsToExport.any (resolutionFails inp.config_schema) = true := by
    rw [List.any_eq_true]
    obtain ⟨e, he, hf⟩ := hsomebad
    exact ⟨e, he, hf⟩
  by_cases hempty : (inp.formats.isEmpty || inp.parts.isEmpty) = true
  · constructor
    · intro ts
      simp [mainRun, hempty]
    · intro ev hev
      simp [mainRun, hempty] at hev
  · cases hsuf : generate_file_suffix inp.wvm inp.vid inp.versions with
    | error e =>
      constructor
      · intro ts
        simp [mainRun, hempty, hsuf]
      · intro ev hev
        simp only [mainRun, hempty, Bool.false_eq_true, if_false, hsuf] at hev
        by_cases hv : inp.wvm = "v"
        · rw [if_pos hv] at hev
          simp at hev
          exact Or.inl hev
        · rw [if_neg hv] at hev
          simp at hev
    | ok sfx =>
      constructor
      · intro ts
        simp [mainRun, hempty, hsuf, hany]
      · intro ev hev
        simp only [mainRun, hempty, Bool.false_eq_true, if_false, hsuf, hany, if_true] at hev
        by_cases hv : inp.wvm = "v"
        · rw [if_pos hv] at hev
          simp at hev
          exact hev
        · rw [if_neg hv] at hev
          simp at hev
          exact Or.inr hev

/-- Witness for C1 on the version-referenced run with an invalid spec:
no batch is scheduled and every event is the version fetch or the schema
fetch. -/
theorem preflight_aborts_witness :
    (∀ ts : List ExportTask, (mainRun runInputV).2 ≠ .scheduled ts)
    ∧ ∀ ev ∈ (mainRun runInputV).1, ev = .versionsFetch ∨ ev = .schemaFetch :=
  preflight_aborts runInputV ⟨invalidSpec, by decide, by decide⟩

/-- The orchestrator records exactly one outcome per task. -/
theorem orchestrateFrom_length (config_schema : List (String × ParamDef)) (suffix : String)
    (envs : Nat → TaskEnv) :
    ∀ (ts : List ExportTask) (i : Nat),
      (orchestrateFrom config_schema suffix envs i ts).length = ts.length := by
  intro ts
  induction ts with
  | nil => intro i; rfl
  | cons t ts ih =>
    intro i
    simp [orchestrateFrom, ih (i + 1)]

/-- Outcome of the j-th task in an orchestrated run depends only on that
task and on the service behaviour it observes. -/
theorem orchestrateFrom_get? (config_schema : List (String × ParamDef)) (suffix : String)
    (envs : Nat → TaskEnv) :
    ∀ (ts : List ExportTask) (i j : Nat),
      (orchestrateFrom config_schema suffix envs i ts).get? j =
        (ts.get? j).map (fun t =>
          export_configuration config_schema t.spec t.partName t.formatName suffix
            (envs (i + j))) := by
  intro ts
  induction ts with
  | nil => intro i j; simp [orchestrateFrom]
  | cons t ts ih =>
    intro i j
    cases j with
    | zero => simp [orchestrateFrom]
    | succ j =>
      rw [orchestrateFrom]
      rw [List.get?_cons_succ, List.get?_cons_succ, ih (i + 1) j]
      have : i + 1 + j = i + (j + 1) := by omega
      rw [this]

/-- C2: an exception raised at any stage of the pipeline of one task is
caught at that task, recorded as a logged failure carrying the spec name,
and does not propagate: the orchestrator still records one outcome per
task, and the outcome of every other task is unchanged whatever
environment the failing task observed. -/
theorem task_failure_isolated (config_schema : List (String × ParamDef)) (suffix : String)
    (tasks : List ExportTask) (envs envs' : Nat → TaskEnv) (k : Nat) (t : ExportTask)
    (e : PyExn) (ht : tasks.get? k = some t)
    (hraise : run_pipeline config_schema t.spec t.partName t.formatName suffix (envs k) =
      .raised e)
    (hagree : ∀ j, j ≠ k → envs' j = envs j) :
    (orchestrate config_schema suffix tasks envs).length = tasks.length
    ∧ (orchestrate config_schema suffix tasks envs).get? k =
      some (.failedLogged t.spec.name)
    ∧ ∀ j, j ≠ k →
      (orchestrate config_schema suffix tasks envs').get? j =
        (orchestrate config_schema suffix tasks envs).get? j := by
  refine ⟨orchestrateFrom_length config_schema suffix envs tasks 0, ?_, ?_⟩
  · rw [orchestrate, orchestrateFrom_get?, ht]
    rw [Nat.zero_add k]
    show some (export_configuration config_schema t.spec t.partName t.formatName suffix
      (envs k)) = _
    unfold export_configuration
    rw [hraise]
  · intro j hj
    rw [orchestrate, orchestrate, orchestrateFrom_get?, orchestrateFrom_get?]
    simp only [Nat.zero_add]
    rw [hagree j hj]

/-- Task environment whose encoding call raises a service error. -/
def envFail : TaskEnv where
  encodeRes := .error .serviceError
  partsRes := .ok [⟨"Part 1", "pid"⟩]
  translationRes := .ok "tid"
  pollStatuses := fun _ => ⟨"DONE", ["fid"]⟩
  pollFuel := 1
  downloadRes := .ok ()

/-- Task environment in which every service call succeeds. -/
def envOk : TaskEnv where
  encodeRes := .ok ("enc", "qp")
  partsRes := .ok [⟨"Part 1", "pid"⟩]
  translationRes := .ok "tid"
  pollStatuses := fun _ => ⟨"DONE", ["fid"]⟩
  pollFuel := 1
  downloadRes := .ok ()

/-- Environment assignment: the first task observes the failing service
behaviour, every later task the succeeding one. -/
def exEnvs : Nat → TaskEnv :=
  fun i => if i = 0 then envFail else envOk

/-- First witness task, whose pipeline raises at the encoding stage. -/
def taskA : ExportTask := ⟨"STEP", "Part 1", ⟨"cfgA", [("scoop", .pyBool true)]⟩⟩

/-- Second witness task, whose pipeline succeeds end to end. -/
def taskB : ExportTask := ⟨"STEP", "Part 1", ⟨"cfgB", []⟩⟩

/-- Witness for C2: in a two-task batch where the encoding call of the
first task raises, the first outcome is a logged failure under cfgA
and the second task still completes and produces its output file. -/
theorem task_failure_isolated_witness :
    orchestrate exSchema "wip" [taskA, taskB] exEnvs =
      [.failedLogged "cfgA", .success "Part 1-cfgB-wip.step"]
    ∧ (orchestrate exSchema "wip" [taskA, taskB] exEnvs).get? 0 =
      some (.failedLogged "cfgA") := by
  have h := task_failure_isolated exSchema "wip" [taskA, taskB] exEnvs exEnvs 0 taskA
    .serviceError rfl rfl (fun j hj => rfl)
  exact ⟨rfl, h.2.1⟩

/-- Length of a flat map whose blocks all have the same length. -/
theorem flatMap_length_const {α β : Type} (f : α → List β) (m : Nat)
    (hm : ∀ a, (f a).length = m) (l : List α) : (l.flatMap f).length = l.length * m := by
  induction l with
  | nil => simp
  | cons a t ih =>
    simp only [List.flatMap_cons, List.length_append, List.length_cons, hm a, ih]
    ring

/-- Indexing into a flat map whose blocks all have the same length. -/
theorem flatMap_get?_const {α β : Type} (f : α → List β) (m : Nat)
    (hm : ∀ a, (f a).length = m) (l : List α) :
    ∀ (i r : Nat), i < l.length → r < m →
      (l.flatMap f).get? (i * m + r) = (l.get? i).bind fun a => (f a).get? r := by
  induction l with
  | nil => intro i r hi _; simp at hi
  | cons a t ih =>
    intro i r hi hr
    cases i with
    | zero =>
      rw [List.flatMap_cons, Nat.zero_mul, Nat.zero_add,
        List.get?_append (by rw [hm a]; exact hr)]
      simp
    | succ i =>
      rw [List.flatMap_cons]
      have hidx : (i + 1) * m + r = (f a).length + (i * m + r) := by rw [hm a]; ring
      rw [hidx, List.get?_append_right (Nat.le_add_right _ _), Nat.add_sub_cancel_left,
        ih i r (Nat.lt_of_succ_lt_succ hi) hr]
      simp

/-- A task is in the batch exactly when its three components come from
the three configured lists. -/
theorem mem_buildTasks {formats parts : List String} {specs : List ExportSpec}
    {t : ExportTask} :
    t ∈ buildTasks formats parts specs ↔
      t.formatName ∈ formats ∧ t.partName ∈ parts ∧ t.spec ∈ specs := by
  obtain ⟨tf, tp, te⟩ := t
  simp only [buildTasks, List.mem_flatMap, List.mem_map]
  constructor
  · rintro ⟨f, hf, p, hp, e, he, heq⟩
    injection heq with h1 h2 h3
    subst h1; subst h2; subst h3
    exact ⟨hf, hp, he⟩
  · rintro ⟨h1, h2, h3⟩
    exact ⟨tf, h1, tp, h2, te, h3, rfl⟩

/-- A flat map over a duplicate-free list with duplicate-free pairwise
disjoint blocks is duplicate-free. -/
theorem nodup_flatMap_of_disjoint {α β : Type} (l : List α) (f : α → List β)
    (hl : l.Nodup) (hf : ∀ a ∈ l, (f a).Nodup)
    (hdisj : ∀ a ∈ l, ∀ b ∈ l, a ≠ b → ∀ x ∈ f a, x ∉ f b) :
    (l.flatMap f).Nodup := by
  induction l with
  | nil => simp
  | cons a t ih =>
    rw [List.flatMap_cons, List.nodup_append]
    have hat : a ∈ a :: t := List.mem_cons_self a t
    rw [List.nodup_cons] at hl
    refine ⟨hf a hat,
      ih hl.2 (fun b hb => hf b (List.mem_cons_of_mem a hb))
        (fun b hb c hc hbc => hdisj b (List.mem_cons_of_mem a hb)
          c (List.mem_cons_of_mem a hc) hbc), ?_⟩
    intro x hxa hxt
    rw [List.mem_flatMap] at hxt
    obtain ⟨b, hb, hxb⟩ := hxt
    have hab : a ≠ b := fun he => hl.1 (he ▸ hb)
    exact hdisj a hat b (List.mem_cons_of_mem a hb) hab x hxa hxb

/-- The batch is duplicate-free when the three configured lists are. -/
theorem buildTasks_nodup {formats parts : List String} {specs : List ExportSpec}
    (hf : formats.Nodup) (hp : parts.Nodup) (hs : specs.Nodup) :
    (buildTasks formats parts specs).Nodup := by
  apply nodup_flatMap_of_disjoint _ _ hf
  · intro fmt _
    apply nodup_flatMap_of_disjoint _ _ hp
    · intro p _
      refine List.Nodup.map ?_ hs
      intro e1 e2 he
      injection he
    · intro p1 _ p2 _ hne x hx1 hx2
      rw [List.mem_map] at hx1 hx2
      obtain ⟨e1, _, rfl⟩ := hx1
      obtain ⟨e2, _, he⟩ := hx2
      injection he with _ h2 _
      exact hne h2.symm
  · intro f1 _ f2 _ hne x hx1 hx2
    rw [List.mem_flatMap] at hx1 hx2
    obtain ⟨p1, _, hx1⟩ := hx1
    obtain ⟨p2, _, hx2⟩ := hx2
    rw [List.mem_map] at hx1 hx2
    obtain ⟨e1, _, rfl⟩ := hx1
    obtain ⟨e2, _, he⟩ := hx2
    injection he with h1 _ _
    exact hne h1.symm

/-- Splitting at the first hyphen is unambiguous when the leading parts
are hyphen-free. -/
theorem hyphen_split_inj : ∀ {a₁ a₂ r₁ r₂ : List Char}, '-' ∉ a₁ → '-' ∉ a₂ →
    a₁ ++ '-' :: r₁ = a₂ ++ '-' :: r₂ → a₁ = a₂ ∧ r₁ = r₂ := by
  intro a₁
  induction a₁ with
  | nil =>
    intro a₂ r₁ r₂ h₁ h₂ he
    cases a₂ with
    | nil =>
      rw [List.nil_append, List.nil_append] at he
      injection he with _ ht
      exact ⟨rfl, ht⟩
    | cons b bs =>
      rw [List.nil_append, List.cons_append] at he
      injection he with hb _
      subst hb
      exact absurd (List.mem_cons_self _ _) h₂
  | cons c cs ih =>
    intro a₂ r₁ r₂ h₁ h₂ he
    cases a₂ with
    | nil =>
      rw [List.nil_append, List.cons_append] at he
      injection he with hc _
      subst hc
      exact absurd (List.mem_cons_self _ _) h₁
    | cons b bs =>
      rw [List.cons_append, List.cons_append] at he
      injection he with hc ht
      subst hc
      have h₁' : '-' ∉ cs := fun hm => h₁ (List.mem_cons_of_mem _ hm)
      have h₂' : '-' ∉ bs := fun hm => h₂ (List.mem_cons_of_mem _ hm)
      obtain ⟨ha, hr⟩ := ih h₁' h₂' ht
      exact ⟨by rw [ha], hr⟩

/-- Two tasks of the same run with hyphen-free part and spec names that
derive the same filename agree on part name, spec name and lowercased
format name. -/
theorem taskFilename_inj (suffix : String) (t₁ t₂ : ExportTask)
    (hp₁ : '-' ∉ t₁.partName.data) (hp₂ : '-' ∉ t₂.partName.data)
    (hs₁ : '-' ∉ t₁.spec.name.data) (hs₂ : '-' ∉ t₂.spec.name.data)
    (h : taskFilename suffix t₁ = taskFilename suffix t₂) :
    t₁.partName = t₂.partName ∧ t₁.spec.name = t₂.spec.name
    ∧ strLower t₁.formatName = strLower t₂.formatName := by
  have hd := congrArg String.data h
  have hdash : ("-" : String).data = ['-'] := rfl
  have hdot : ("." : String).data = ['.'] := rfl
  simp only [taskFilename, String.data_append, hdash, hdot, List.append_assoc,
    List.singleton_append] at hd
  obtain ⟨hpe, hrest⟩ := hyphen_split_inj hp₁ hp₂ hd
  obtain ⟨hne, hrest₂⟩ := hyphen_split_inj hs₁ hs₂ hrest
  have hlf := List.append_cancel_left hrest₂
  injection hlf with _ hlf₂
  exact ⟨String.ext hpe, String.ext hne, String.ext hlf₂⟩

/-- C9 counterexample: filenames are not distinct in general — hyphens
inside part or spec names make the hyphen-joined filenames collide, here
between part a-b with spec c and part a with spec b-c. -/
theorem filename_collision_cex :
    ¬ ((buildTasks ["STEP"] ["a-b", "a"] [⟨"c", []⟩, ⟨"b-c", []⟩]).map
        (taskFilename "wip")).Nodup := by decide

/-- C9 (amended): the batch is the full cross product — F times P times S
tasks, indexed format-major, then part, then spec — and, provided the
lowercased format names, the part names and the spec names are pairwise
distinct and the part and spec names contain no hyphen, the derived
filenames are all distinct. -/
theorem batch_cross_product (formats parts : List String) (specs : List ExportSpec)
    (suffix : String)
    (hf : (formats.map strLower).Nodup) (hp : parts.Nodup)
    (hs : (specs.map ExportSpec.name).Nodup)
    (hph : ∀ p ∈ parts, '-' ∉ p.data)
    (hsh : ∀ e ∈ specs, '-' ∉ e.name.data) :
    (buildTasks formats parts specs).length =
      formats.length * parts.length * specs.length
    ∧ (∀ i j k : Nat, i < formats.length → j < parts.length → k < specs.length →
      (buildTasks formats parts specs).get? ((i * parts.length + j) * specs.length + k) =
        (formats.get? i).bind fun f => (parts.get? j).bind fun p =>
          (specs.get? k).map fun e => (⟨f, p, e⟩ : ExportTask))
    ∧ ((buildTasks formats parts specs).map (taskFilename suffix)).Nodup := by
  have hinner : ∀ fmt : String,
      ((parts.flatMap fun p => specs.map fun e => (⟨fmt, p, e⟩ : ExportTask)).length) =
        parts.length * specs.length := by
    intro fmt
    exact flatMap_length_const _ (specs.length) (fun p => List.length_map _ _) parts
  refine ⟨?_, ?_, ?_⟩
  · rw [buildTasks, flatMap_length_const _ (parts.length * specs.length) hinner formats]
    ring
  · intro i j k hi hj hk
    have hjk : j * specs.length + k < parts.length * specs.length := by
      calc j * specs.length + k < j * specs.length + specs.length :=
            Nat.add_lt_add_left hk _
        _ = (j + 1) * specs.length := by ring
        _ ≤ parts.length * specs.length :=
            Nat.mul_le_mul_right _ (Nat.succ_le_of_lt hj)
    have hidx : (i * parts.length + j) * specs.length + k =
        i * (parts.length * specs.length) + (j * specs.length + k) := by ring
    rw [buildTasks, hidx,
      flatMap_get?_const _ (parts.length * specs.length) hinner formats i _ hi hjk]
    cases hfi : formats.get? i with
    | none => rfl
    | some fmt =>
      simp only [Option.some_bind]
      rw [flatMap_get?_const _ specs.length (fun p => List.length_map _ _) parts j k hj hk]
      cases hpj : parts.get? j with
      | none => rfl
      | some p =>
        simp only [Option.some_bind]
        rw [List.get?_map]
  · apply List.Nodup.map_on
    · intro t1 ht1 t2 ht2 heq
      rw [mem_buildTasks] at ht1 ht2
      have inj := taskFilename_inj suffix t1 t2 (hph _ ht1.2.1) (hph _ ht2.2.1)
        (hsh _ ht1.2.2) (hsh _ ht2.2.2) heq
      have hfeq : t1.formatName = t2.formatName :=
        List.inj_on_of_nodup_map hf ht1.1 ht2.1 inj.2.2
      have hseq : t1.spec = t2.spec :=
        List.inj_on_of_nodup_map hs ht1.2.2 ht2.2.2 inj.2.1
      have hpeq : t1.partName = t2.partName := inj.1
      obtain ⟨tf1, tp1, te1⟩ := t1
      obtain ⟨tf2, tp2, te2⟩ := t2
      have h1 : tf1 = tf2 := hfeq
      have h2 : te1 = te2 := hseq
      have h3 : tp1 = tp2 := hpeq
      rw [h1, h2, h3]
    · exact buildTasks_nodup (List.Nodup.of_map _ hf) hp (List.Nodup.of_map _ hs)

/-- Witness for C9 on the two-by-two-by-two scenario with hyphen-free
names: eight tasks, all eight filenames distinct, and the format-major
indexing holds at a sample index. -/
theorem batch_cross_product_witness :
    (buildTasks ["STEP", "STL"] ["Part 1", "Part 2"] [⟨"cfgA", []⟩, ⟨"cfgB", []⟩]).length = 8
    ∧ ((buildTasks ["STEP", "STL"] ["Part 1", "Part 2"]
        [⟨"cfgA", []⟩, ⟨"cfgB", []⟩]).map (taskFilename "wip")).Nodup
    ∧ (buildTasks ["STEP", "STL"] ["Part 1", "Part 2"]
        [⟨"cfgA", []⟩, ⟨"cfgB", []⟩]).get? ((1 * 2 + 0) * 2 + 1) =
      some ⟨"STL", "Part 1", ⟨"cfgB", []⟩⟩ := by
  have h := batch_cross_product ["STEP", "STL"] ["Part 1", "Part 2"]
    [⟨"cfgA", []⟩, ⟨"cfgB", []⟩] "wip" (by decide) (by decide) (by decide)
    (by decide) (by decide)
  refine ⟨h.1.trans (by decide), h.2.2, (h.2.1 1 0 1 (by decide) (by decide) (by decide)).trans
    (by decide)⟩

example : parsePyFloat "60" = some ⟨60, 0⟩ := by decide
example : parsePyFloat "15.5" = some ⟨155, 1⟩ := by decide
example : parsePyFloat "abc" = none := by decide
example : parsePyFloat "15cm" = none := by decide
example : parsePyFloat "1.5e1" = some ⟨150, 1⟩ := by decide
example : firstTok "60 mm" = "60" := by decide
example : hasSupportedUnit "60 mm" = true := by decide
example : hasSupportedUnit "60 furlong" = false := by decide
example : (PyVal.pyInt 15).pyRepr = "15" := by decide
example : floatRepr ⟨155, 1⟩ = "15.5" := by decide
example : floatRepr ⟨15, 0⟩ = "15.0" := by decide
example : strLower "STEP" = "step" := by decide
